import Mathlib

/-!
Verification of the round-trip timezone test engine of
`django-postgres-timezones` (`tztest/main.py`).

Times are modelled as minutes since the Unix epoch (`Int`).  An aware
Python `datetime` is a physical instant together with the zone name and
the local wall-clock reading it displays; a naive `datetime` is just its
wall-clock reading.  The pytz timezone objects used by the program are
modelled by `Tz`: a zone name, the list of (utcoffset, is_dst) variants
the zone uses, and the offset in effect at each UTC instant.  The
Postgres/Django store — an external collaborator of the repository —
is modelled from the spec's store contract (section 6): stored bits are
the UTC wall-clock minutes of the persisted value.
-/

namespace Tztest

/-- An aware `datetime`: physical instant, zone name, and local
wall-clock minutes (`wall = instant + utcoffset`). -/
structure AwareDT where
  instant : Int
  zone : String
  wall : Int
deriving DecidableEq

/-- Python `==` on two aware datetimes compares physical instants
(zone-independent), not wall-clock representations. -/
def dtEq (a b : AwareDT) : Bool :=
  a.instant == b.instant

/-- Python `-` on two aware datetimes: the signed physical-time
difference in minutes (a `timedelta`). -/
def dtSub (a b : AwareDT) : Int :=
  a.instant - b.instant

/-- A pytz timezone: name, the (utcoffset minutes, is_dst) variants the
zone uses, and the offset in effect at each UTC instant. -/
structure Tz where
  zone : String
  variants : List (Int × Bool)
  offsetAt : Int → Int

/-- pytz `tz.normalize(dt)`: re-express an aware datetime in this zone,
preserving the physical instant and recomputing the wall-clock. -/
def Tz.normalize (tz : Tz) (d : AwareDT) : AwareDT :=
  { instant := d.instant, zone := tz.zone, wall := d.instant + tz.offsetAt d.instant }

/-- The zone variants consistent with a given naive wall-clock reading:
those offsets `o` whose instant `w - o` really carries offset `o`.
One candidate: unambiguous; two: a DST fall-back ambiguity; none: a
fall-forward nonexistent wall-clock. -/
def Tz.candidates (tz : Tz) (w : Int) : List (Int × Bool) :=
  tz.variants.filter (fun v => tz.offsetAt (w - v.1) == v.1)

/-- pytz `tz.localize(dt)` with the default `is_dst=False`, as called
throughout `main.py`: attach this zone to a naive wall-clock.  With a
boolean `is_dst`, pytz never raises; an ambiguous or nonexistent
wall-clock is silently resolved preferring the non-DST variant. -/
def Tz.localize (tz : Tz) (w : Int) : AwareDT :=
  match tz.candidates w with
  | [v] => { instant := w - v.1, zone := tz.zone, wall := w }
  | cs =>
    let pool := if cs.isEmpty then tz.variants else cs
    let v := (pool.find? (fun p => p.2 == false)).getD (pool.headD (0, false))
    { instant := w - v.1, zone := tz.zone, wall := w }

/-- The failures pytz `localize` can raise when called with
`is_dst=None` (`AmbiguousTimeError` / `NonExistentTimeError`). -/
inductive LocalizeError where
  | ambiguous
  | nonexistent
deriving DecidableEq

/-- pytz `tz.localize(dt, is_dst=None)`: raises on an ambiguous or
nonexistent wall-clock instead of guessing.  `main.py` never uses this
mode; it is stated here to express the error-handling claims. -/
def Tz.localizeNone (tz : Tz) (w : Int) : Except LocalizeError AwareDT :=
  match tz.candidates w with
  | [v] => Except.ok { instant := w - v.1, zone := tz.zone, wall := w }
  | [] => Except.error LocalizeError.nonexistent
  | _ => Except.error LocalizeError.ambiguous

/-- The pytz UTC singleton. -/
def UTC : Tz :=
  { zone := "UTC", variants := [(0, false)], offsetAt := fun _ => 0 }

/-! ### The store (external collaborator)

Modelled from the spec: the persistence backend is not part of the
repository; spec section 6 gives its contract.  The store is a list of
stored rows, each row being the UTC wall-clock minutes of the persisted
bits.  A `StoredRecord` is identified with its stored bits (the program
re-fetches the row it just created by primary key, so no other row ever
influences a trial). -/

/-- Modelled from the spec: `readRaw` — the stored bits reinterpreted as
UTC with no conversion (`timestamp at time zone 'UTC'`). -/
def readRaw (bits : Int) : Int :=
  bits

/-- Modelled from the spec: `readImplicit` — the stored bits converted
into the connection's configured zone by the store. -/
def readImplicit (connZone : Tz) (bits : Int) : Int :=
  bits + connZone.offsetAt bits

/-- Modelled from the spec: `readExplicit` — the stored bits converted
into a target zone by an explicit query-time projection
(`timestamp at time zone '<zone>'`). -/
def readExplicit (tz : Tz) (bits : Int) : Int :=
  bits + tz.offsetAt bits

/-- Modelled from the spec: `create` — persist an aware value as its
UTC-normalized instant, a naive value as its literal wall-clock bits. -/
def createBits (style : String) (d : AwareDT) : Int :=
  if style = "naive" then d.wall else d.instant

/-- `SaveMethod`: a way of saving a datetime, with a target zone and an
aware/naive style. -/
structure SaveMethod where
  tz : Tz
  style : String

/-- `SaveMethod.__init__`: `assert style in ('aware', 'naive')` — the
construction fails (raises) unless the style is in the allowed set. -/
def SaveMethod.init (tz : Tz) (style : String) : Option SaveMethod :=
  if style = "aware" ∨ style = "naive" then some { tz := tz, style := style }
  else none

/-- `SaveMethod.__unicode__`. -/
def SaveMethod.unicode (sm : SaveMethod) : String :=
  sm.style ++ " " ++ sm.tz.zone

/-- `SaveMethod.save`: normalize the input into `self.tz`; a naive save
then drops the offset, keeping the wall-clock fields; hand the result to
the store, creating exactly one new record.  Returns the new record's
bits and the grown store. -/
def SaveMethod.save (sm : SaveMethod) (store : List Int) (dt : AwareDT) : Int × List Int :=
  let d := sm.tz.normalize dt
  let bits := createBits sm.style d
  (bits, store ++ [bits])

/-- `LoadMethod`: a way of loading a datetime, with a zone to localize
to and an implicit/explicit conversion mode. -/
structure LoadMethod where
  tz : Tz
  conversion : String

/-- `LoadMethod.__init__`: `assert conversion in ('implicit', 'explicit')`. -/
def LoadMethod.init (tz : Tz) (conversion : String) : Option LoadMethod :=
  if conversion = "implicit" ∨ conversion = "explicit" then
    some { tz := tz, conversion := conversion }
  else none

/-- `LoadMethod.__unicode__`. -/
def LoadMethod.unicode (lm : LoadMethod) : String :=
  lm.conversion ++ " " ++ lm.tz.zone

/-- `LoadMethod.load`: return `(stored_datetime, loaded_datetime)`.
The stored datetime is the raw stored value read with no conversion and
localized as UTC; the loaded datetime is the implicit (connection-zone)
or explicit (`at time zone`) conversion, localized into `self.tz`.
`connZone` is the store connection's configured zone. -/
def LoadMethod.load (lm : LoadMethod) (connZone : Tz) (bits : Int) : AwareDT × AwareDT :=
  let loadedWall :=
    if lm.conversion = "implicit" then readImplicit connZone bits
    else readExplicit lm.tz bits
  (UTC.localize (readRaw bits), lm.tz.localize loadedWall)

/-- `TestResult.__init__`: the result of a single roundtrip test,
a pure function of the saved, stored and loaded datetimes. -/
structure TestResult where
  stored_correctly : Bool
  loaded_correctly : Bool
  stored_error : Int
  loaded_error : Int
deriving DecidableEq

/-- `TestResult(saved_dt, stored_dt, loaded_dt)`. -/
def TestResult.make (saved_dt stored_dt loaded_dt : AwareDT) : TestResult :=
  { stored_correctly := dtEq saved_dt stored_dt
    loaded_correctly := dtEq saved_dt loaded_dt
    stored_error := dtSub stored_dt saved_dt
    loaded_error := dtSub loaded_dt saved_dt }

/-- Python `str(timedelta(minutes = m))`: `[D day(s), ]H:MM:SS`, with the
days part normalized so the clock part is nonnegative. -/
def pad2 (n : Int) : String :=
  if n < 10 then "0" ++ toString n else toString n

/-- String form of a `timedelta` of `m` minutes, as Python prints it. -/
def timedeltaStr (m : Int) : String :=
  let days := m.fdiv 1440
  let rem := m - 1440 * days
  let clock := toString (rem.fdiv 60) ++ ":" ++ pad2 (rem - 60 * rem.fdiv 60) ++ ":00"
  if days = 0 then clock
  else if days = 1 ∨ days = -1 then toString days ++ " day, " ++ clock
  else toString days ++ " days, " ++ clock

/-- `TestResult.__unicode__`: each of the stored/loaded parts prints
`OK` when correct, else its signed error, joined by `/`. -/
def TestResult.unicode (r : TestResult) : String :=
  (if r.stored_correctly then "OK" else timedeltaStr r.stored_error) ++ "/" ++
  (if r.loaded_correctly then "OK" else timedeltaStr r.loaded_error)

/-- `Test`: a numbered pair of a save method and a load method. -/
structure Test where
  test_number : Nat
  save_method : SaveMethod
  load_method : LoadMethod

/-- `Test.__init__`: take the current class counter as this test's
number and bump the counter (counter starts at 1). -/
def Test.construct (counter : Nat) (sm : SaveMethod) (lm : LoadMethod) : Test × Nat :=
  ({ test_number := counter, save_method := sm, load_method := lm }, counter + 1)

/-- Construct a list of Tests in order, threading the class counter. -/
def constructTests (counter : Nat) : List (SaveMethod × LoadMethod) → List Test × Nat
  | [] => ([], counter)
  | (sm, lm) :: rest =>
    let tc := Test.construct counter sm lm
    let rec' := constructTests tc.2 rest
    (tc.1 :: rec'.1, rec'.2)

/-- `Test.__unicode__`. -/
def Test.unicode (t : Test) : String :=
  toString t.test_number

/-- `Test.make_roundtrip`: save then load, threading the store. -/
def Test.make_roundtrip (t : Test) (connZone : Tz) (store : List Int) (dt : AwareDT) :
    (AwareDT × AwareDT) × List Int :=
  let sr := t.save_method.save store dt
  (t.load_method.load connZone sr.1, sr.2)

/-- `Test.run_test`: `TestResult(saved_dt, *make_roundtrip(saved_dt))`. -/
def Test.run_test (t : Test) (connZone : Tz) (store : List Int) (dt : AwareDT) :
    TestResult × List Int :=
  let rt := t.make_roundtrip connZone store dt
  (TestResult.make dt rt.1.1 rt.1.2, rt.2)

/-- One row of the table: `[test, test.save_method, test.load_method,
result, result, ...]`. -/
structure Row where
  test : Test
  results : List TestResult

/-- `TestTable`: the datetime column headers (`headers[3:]`) and rows. -/
structure TestTable where
  dtHeaders : List AwareDT
  rows : List Row

/-- The freshly constructed table: three label headers, no datetime
columns, no rows. -/
def emptyTable : TestTable :=
  { dtHeaders := [], rows := [] }

/-- The body of `add_datetime`'s loop: run the new datetime through
every existing row's test, appending each result to its row and
threading the store. -/
def runRows (z : Tz) (dt : AwareDT) : List Row → List Int → List Row × List Int
  | [], store => ([], store)
  | r :: rs, store =>
    let res := r.test.run_test z store dt
    let rest := runRows z dt rs res.2
    ({ test := r.test, results := r.results ++ [res.1] } :: rest.1, rest.2)

/-- The body of `add_test`'s loop: run the new test on every datetime
header in order, threading the store. -/
def runCols (z : Tz) (t : Test) : List AwareDT → List Int → List TestResult × List Int
  | [], store => ([], store)
  | d :: ds, store =>
    let res := t.run_test z store d
    let rest := runCols z t ds res.2
    (res.1 :: rest.1, rest.2)

/-- `TestTable.add_datetime`: append `DJANGO_TZ.normalize(dt)` to the
headers and a freshly run result for the original `dt` to every row.
`z` plays the role of the module-global `DJANGO_TZ`, which is also the
store connection's configured zone. -/
def TestTable.add_datetime (tbl : TestTable) (z : Tz) (store : List Int) (dt : AwareDT) :
    TestTable × List Int :=
  let rr := runRows z dt tbl.rows store
  ({ dtHeaders := tbl.dtHeaders ++ [z.normalize dt], rows := rr.1 }, rr.2)

/-- `TestTable.add_test`: append a new row for the test, filled with one
freshly run result per existing datetime header. -/
def TestTable.add_test (tbl : TestTable) (z : Tz) (store : List Int) (t : Test) :
    TestTable × List Int :=
  let rc := runCols z t tbl.dtHeaders store
  ({ dtHeaders := tbl.dtHeaders, rows := tbl.rows ++ [{ test := t, results := rc.1 }] }, rc.2)

/-- A single `add_datetime` or `add_test` call. -/
inductive TableOp where
  | addDatetime (dt : AwareDT)
  | addTest (t : Test)

/-- Apply a sequence of table mutations, threading table and store. -/
def applyOps (z : Tz) : List TableOp → TestTable × List Int → TestTable × List Int
  | [], st => st
  | TableOp.addDatetime dt :: ops, st => applyOps z ops (st.1.add_datetime z st.2 dt)
  | TableOp.addTest t :: ops, st => applyOps z ops (st.1.add_test z st.2 t)

/-- The rectangularity invariant: every row has exactly one result per
datetime column header. -/
def isRect (tbl : TestTable) : Bool :=
  tbl.rows.all (fun r => r.results.length == tbl.dtHeaders.length)

/-- Add a list of datetimes in order (the first loop of
`generate_test_table`). -/
def addDatetimes (z : Tz) : List AwareDT → TestTable × List Int → TestTable × List Int
  | [], st => st
  | d :: ds, st => addDatetimes z ds (st.1.add_datetime z st.2 d)

/-- Add a list of tests in order (the second loop of
`generate_test_table`). -/
def addTests (z : Tz) : List Test → TestTable × List Int → TestTable × List Int
  | [], st => st
  | t :: ts, st => addTests z ts (st.1.add_test z st.2 t)

/-- Build a table adding all datetime columns first, then all rows. -/
def buildColsFirst (z : Tz) (dts : List AwareDT) (ts : List Test) (store : List Int) :
    TestTable × List Int :=
  addTests z ts (addDatetimes z dts (emptyTable, store))

/-- Build a table adding all rows first, then all datetime columns. -/
def buildRowsFirst (z : Tz) (dts : List AwareDT) (ts : List Test) (store : List Int) :
    TestTable × List Int :=
  addDatetimes z dts (addTests z ts (emptyTable, store))

/-- The outcome of one trial, independent of the store contents (the
trial reads back only the record it just created). -/
def cell (z : Tz) (t : Test) (dt : AwareDT) : TestResult :=
  (t.run_test z [] dt).1

/-! ### Rendering -/

/-- Python format `{:>n}`: right-align in a field of `w` characters. -/
def padR (w : Nat) (s : String) : String :=
  if s.length < w then String.mk (List.replicate (w - s.length) ' ') ++ s else s

/-- Python format `{:^n}`: center in a field of `w` characters, the odd
padding character going to the right. -/
def padC (w : Nat) (s : String) : String :=
  if s.length < w then
    String.mk (List.replicate ((w - s.length) / 2) ' ') ++ s ++
      String.mk (List.replicate (w - s.length - (w - s.length) / 2) ' ')
  else s

/-- Year, month and day of a day count since the Unix epoch (proleptic
Gregorian; the standard era-based civil-date algorithm, matching what
Python's `datetime` displays). -/
def civilFromDays (z0 : Int) : Int × Int × Int :=
  let z := z0 + 719468
  let era := z.fdiv 146097
  let doe := z - era * 146097
  let yoe := (doe - doe.fdiv 1460 + doe.fdiv 36524 - doe.fdiv 146096).fdiv 365
  let doy := doe - (365 * yoe + yoe.fdiv 4 - yoe.fdiv 100)
  let mp := (5 * doy + 2).fdiv 153
  let d := doy - (153 * mp + 2).fdiv 5 + 1
  let m := mp + (if mp < 10 then 3 else -9)
  (yoe + era * 400 + (if m ≤ 2 then 1 else 0), m, d)

/-- `unicode(dt)` for an aware datetime:
`YYYY-MM-DD HH:MM:SS+HH:MM` from the wall-clock fields and offset. -/
def AwareDT.unicode (d : AwareDT) : String :=
  let days := d.wall.fdiv 1440
  let mins := d.wall - 1440 * days
  let c := civilFromDays days
  let off := d.wall - d.instant
  let a : Int := off.natAbs
  toString c.1 ++ "-" ++ pad2 c.2.1 ++ "-" ++ pad2 c.2.2 ++ " " ++
    pad2 (mins.fdiv 60) ++ ":" ++ pad2 (mins - 60 * mins.fdiv 60) ++ ":00" ++
    (if off < 0 then "-" else "+") ++ pad2 (a.fdiv 60) ++ ":" ++ pad2 (a - 60 * a.fdiv 60)

/-- The body of `add_row` in `TestTable.__unicode__`: the first three
columns right-aligned to 2 and centered to 18 and 21 characters, then
each remaining cell centered to 27 characters, all joined by `|`.
Heterogeneous row values are rendered through their unicode string
forms. -/
def formatRow (c0 c1 c2 : String) (cells : List String) : String :=
  String.intercalate "|" ([padR 2 c0, padC 18 c1, padC 21 c2] ++ cells.map (padC 27))

/-- The rule line under the header: as many dashes as the header line
has characters. -/
def ruleOf (s : String) : String :=
  String.mk (List.replicate s.length '-')

/-- `TestTable.__unicode__`: the header row (`#`, `Save As`, `Load As`,
then the datetime columns), a dash rule of the header's length, then
one line per row, all joined by newlines. -/
def TestTable.unicode (tbl : TestTable) : String :=
  let header := formatRow "#" "Save As" "Load As" (tbl.dtHeaders.map AwareDT.unicode)
  String.intercalate "\n"
    (header :: ruleOf header ::
      tbl.rows.map (fun r => formatRow r.test.unicode r.test.save_method.unicode
        r.test.load_method.unicode (r.results.map TestResult.unicode)))

/-! ### The concrete catalogs

`US_Pacific` carries the tzdata facts for the year 2002 used by the
program's two catalog datetimes: standard offset UTC-8, daylight offset
UTC-7, daylight time in force from 2002-04-07 10:00 UTC to
2002-10-27 09:00 UTC.  Instants are minutes since the Unix epoch. -/

/-- The 2002 portion of the pytz `US/Pacific` zone. -/
def US_Pacific : Tz :=
  { zone := "US/Pacific"
    variants := [(-480, false), (-420, true)]
    offsetAt := fun i => if 16969560 ≤ i ∧ i < 17261820 then -420 else -480 }

/-- `datetime(2002, 10, 27, 8, 30, 0, tzinfo=UTC)`: shortly before the
US/Pacific daylight-savings fall-back event. -/
def dtFallBack : AwareDT :=
  { instant := 17261790, zone := "UTC", wall := 17261790 }

/-- `datetime(2002, 4, 7, 2, 30, 0, tzinfo=UTC)`: its naive version,
read as US/Pacific, lands shortly after the fall-forward event. -/
def dtSpring : AwareDT :=
  { instant := 16969110, zone := "UTC", wall := 16969110 }

/-- An unambiguous mid-summer instant (2002-07-17 18:13 UTC), used to
instantiate the universally quantified theorems. -/
def dtSummer : AwareDT :=
  { instant := 17000000, zone := "UTC", wall := 17000000 }

/-- The module-level `datetimes` catalog. -/
def datetimes : List AwareDT :=
  [dtFallBack, dtSpring]

/-- The module-level `tests` catalog: nine save/load pairs numbered from
1 by the class counter.  `djangoTz` stands for the module global
`DJANGO_TZ`, built from the Django settings (which are not part of the
sources). -/
def tests (djangoTz : Tz) : List Test :=
  (constructTests 1
    [({ tz := djangoTz, style := "naive" }, { tz := djangoTz, conversion := "implicit" }),
     ({ tz := djangoTz, style := "naive" }, { tz := djangoTz, conversion := "explicit" }),
     ({ tz := djangoTz, style := "aware" }, { tz := djangoTz, conversion := "implicit" }),
     ({ tz := djangoTz, style := "aware" }, { tz := djangoTz, conversion := "explicit" }),
     ({ tz := djangoTz, style := "naive" }, { tz := UTC, conversion := "explicit" }),
     ({ tz := UTC, style := "aware" }, { tz := djangoTz, conversion := "implicit" }),
     ({ tz := UTC, style := "naive" }, { tz := UTC, conversion := "implicit" }),
     ({ tz := UTC, style := "aware" }, { tz := UTC, conversion := "explicit" }),
     ({ tz := djangoTz, style := "aware" }, { tz := UTC, conversion := "explicit" })]).1

/-- `generate_test_table`: add every catalog datetime, then every
catalog test, starting from an empty table and an empty store. -/
def generate_test_table (djangoTz : Tz) : TestTable × List Int :=
  addTests djangoTz (tests djangoTz) (addDatetimes djangoTz datetimes (emptyTable, []))

/-! ### Helper lemmas -/

/-- A trial's outcome does not depend on the store contents: the trial
reads back exactly the record it created. -/
theorem run_test_fst (t : Test) (z : Tz) (store : List Int) (dt : AwareDT) :
    (t.run_test z store dt).1 = cell z t dt :=
  rfl

/-- A trial's outcome depends on the input datetime only through its
physical instant (saving normalizes first, and comparison is
instant-based). -/
theorem cell_instant (z : Tz) (t : Test) (d d' : AwareDT) (h : d.instant = d'.instant) :
    cell z t d = cell z t d' := by
  simp only [cell, Test.run_test, Test.make_roundtrip, SaveMethod.save, LoadMethod.load,
    Tz.normalize, createBits, TestResult.make, dtEq, dtSub, readRaw, readImplicit,
    readExplicit, h]

/-- Normalization preserves the physical instant. -/
theorem normalize_instant (z : Tz) (d : AwareDT) : (z.normalize d).instant = d.instant :=
  rfl

/-- `localize` always tags the result with this zone's name. -/
theorem localize_zone (tz : Tz) (w : Int) : (tz.localize w).zone = tz.zone := by
  unfold Tz.localize
  split <;> rfl

/-- The loop of `add_test` produces one result per datetime header, each
independent of the threaded store. -/
theorem runCols_fst (z : Tz) (t : Test) (ds : List AwareDT) (store : List Int) :
    (runCols z t ds store).1 = ds.map (cell z t) := by
  induction ds generalizing store with
  | nil => rfl
  | cons d ds ih => simp [runCols, ih, run_test_fst]

/-- The loop of `add_datetime` appends exactly one result to every row,
each independent of the threaded store. -/
theorem runRows_fst (z : Tz) (dt : AwareDT) (rs : List Row) (store : List Int) :
    (runRows z dt rs store).1 =
      rs.map (fun r => { test := r.test, results := r.results ++ [cell z r.test dt] }) := by
  induction rs generalizing store with
  | nil => rfl
  | cons r rs ih => simp [runRows, ih, run_test_fst]

/-- Characterization of adding a list of tests: the headers are kept and
one fully backfilled row is appended per test. -/
theorem addTests_fst (z : Tz) (ts : List Test) (tbl : TestTable) (store : List Int) :
    (addTests z ts (tbl, store)).1 =
      { dtHeaders := tbl.dtHeaders,
        rows := tbl.rows ++ ts.map (fun t =>
          { test := t, results := tbl.dtHeaders.map (cell z t) }) } := by
  induction ts generalizing tbl store with
  | nil => simp [addTests]
  | cons t ts ih =>
    simp only [addTests, TestTable.add_test, runCols_fst]
    rw [ih]
    simp

/-- Characterization of adding a list of datetimes: one normalized
header is appended per datetime, and every existing row is backfilled
with one result per datetime. -/
theorem addDatetimes_fst (z : Tz) (ds : List AwareDT) (tbl : TestTable) (store : List Int) :
    (addDatetimes z ds (tbl, store)).1 =
      { dtHeaders := tbl.dtHeaders ++ ds.map z.normalize,
        rows := tbl.rows.map (fun r =>
          { test := r.test, results := r.results ++ ds.map (cell z r.test) }) } := by
  induction ds generalizing tbl store with
  | nil => simp [addDatetimes]
  | cons d ds ih =>
    simp only [addDatetimes, TestTable.add_datetime, runRows_fst]
    rw [ih]
    simp [List.map_map, Function.comp]

/-- Running a test on a datetime and on its normalization into any zone
gives the same result (normalization preserves the instant). -/
theorem cell_normalize (z z' : Tz) (t : Test) (d : AwareDT) :
    cell z t (z'.normalize d) = cell z t d :=
  cell_instant z t (z'.normalize d) d (normalize_instant z' d)

/-- The test numbers issued starting from counter `c` are
`c, c+1, ..., c+n-1`, and the counter ends at `c+n`. -/
theorem constructTests_numbers (c : Nat) (specs : List (SaveMethod × LoadMethod)) :
    (constructTests c specs).1.map Test.test_number = List.range' c specs.length ∧
      (constructTests c specs).2 = c + specs.length := by
  induction specs generalizing c with
  | nil => simp [constructTests]
  | cons p specs ih =>
    obtain ⟨p1, p2⟩ := p
    simp only [constructTests, Test.construct, List.map_cons, List.length_cons,
      List.range'_succ]
    refine ⟨by simp [(ih (c + 1)).1], ?_⟩
    rw [(ih (c + 1)).2]
    omega

/-- Localizing any wall-clock as UTC is the identity on instants. -/
theorem UTC_localize (w : Int) : UTC.localize w = { instant := w, zone := "UTC", wall := w } := by
  simp [UTC, Tz.localize, Tz.candidates, List.filter]

/-! ### Claim theorems -/

/-- C1: `TestResult` is a pure function of the three aware datetimes:
`stored_correctly` and `loaded_correctly` are physical-instant equality
of stored resp. loaded with the original, `stored_error` and
`loaded_error` are the signed instant differences (all zone- and
wall-clock-independent); and `TestResult(v, v, v)` has both flags true
and both errors equal to the zero duration. -/
theorem trialResult_pure_of_instants :
    (∀ o s l : AwareDT,
      (TestResult.make o s l).stored_correctly = (s.instant == o.instant) ∧
      (TestResult.make o s l).loaded_correctly = (l.instant == o.instant) ∧
      (TestResult.make o s l).stored_error = s.instant - o.instant ∧
      (TestResult.make o s l).loaded_error = l.instant - o.instant) ∧
    (∀ v : AwareDT, TestResult.make v v v =
      { stored_correctly := true, loaded_correctly := true,
        stored_error := 0, loaded_error := 0 }) := by
  constructor
  · intro o s l
    refine ⟨?_, ?_, rfl, rfl⟩ <;>
      · simp only [TestResult.make, dtEq]
        by_cases h : o.instant = s.instant <;> by_cases h' : o.instant = l.instant <;>
          simp [h, h', Ne.symm, eq_comm]
  · intro v
    simp [TestResult.make, dtEq, dtSub]

/-- C5: rectangularity — starting from the empty table, after any
sequence of `add_datetime`/`add_test` calls every row holds exactly one
result per datetime column header; moreover `add_datetime` appends
exactly one result to every existing row, and `add_test` appends one row
holding exactly one result per existing column. -/
theorem table_rectangularity :
    (∀ (z : Tz) (ops : List TableOp) (store : List Int),
      isRect (applyOps z ops (emptyTable, store)).1 = true) ∧
    (∀ (tbl : TestTable) (z : Tz) (store : List Int) (dt : AwareDT),
      (tbl.add_datetime z store dt).1.rows.map (fun r => r.results.length) =
        tbl.rows.map (fun r => r.results.length + 1)) ∧
    (∀ (tbl : TestTable) (z : Tz) (store : List Int) (t : Test),
      (tbl.add_test z store t).1.rows.map (fun r => r.results.length) =
        tbl.rows.map (fun r => r.results.length) ++ [tbl.dtHeaders.length]) := by
  have had : ∀ (tbl : TestTable) (z : Tz) (store : List Int) (dt : AwareDT),
      isRect tbl = true → isRect (tbl.add_datetime z store dt).1 = true := by
    intro tbl z store dt h
    simp only [isRect, TestTable.add_datetime, runRows_fst, List.all_eq_true,
      beq_iff_eq] at h ⊢
    intro r hr
    simp only [List.mem_map] at hr
    obtain ⟨r0, hr0, rfl⟩ := hr
    simp [h r0 hr0]
  have hat : ∀ (tbl : TestTable) (z : Tz) (store : List Int) (t : Test),
      isRect tbl = true → isRect (tbl.add_test z store t).1 = true := by
    intro tbl z store t h
    simp only [isRect, TestTable.add_test, runCols_fst, List.all_eq_true,
      beq_iff_eq] at h ⊢
    intro r hr
    simp only [List.mem_append, List.mem_singleton] at hr
    rcases hr with hr | rfl
    · exact h r hr
    · simp
  refine ⟨?_, ?_, ?_⟩
  · intro z ops store
    have main : ∀ (ops : List TableOp) (tbl : TestTable) (store : List Int),
        isRect tbl = true → isRect (applyOps z ops (tbl, store)).1 = true := by
      intro ops
      induction ops with
      | nil => intro tbl store h; exact h
      | cons op ops ih =>
        intro tbl store h
        cases op with
        | addDatetime dt => exact ih _ _ (had tbl z store dt h)
        | addTest t => exact ih _ _ (hat tbl z store t h)
    exact main ops emptyTable store rfl
  · intro tbl z store dt
    simp [TestTable.add_datetime, runRows_fst, List.map_map, Function.comp]
  · intro tbl z store t
    simp [TestTable.add_test, runCols_fst]

/-- C6: table growth order independence — for the same datetime and test
catalogs (and the deterministic store of the contract), adding all
columns then all rows yields exactly the same table (headers and every
cell's flags and errors) as adding all rows then all columns, whatever
the initial store contents on either side. -/
theorem table_growth_order_independence (z : Tz) (dts : List AwareDT) (ts : List Test)
    (store store' : List Int) :
    (buildColsFirst z dts ts store).1 = (buildRowsFirst z dts ts store').1 := by
  unfold buildColsFirst buildRowsFirst
  rcases h1 : addDatetimes z dts (emptyTable, store) with ⟨T1, S1⟩
  rcases h2 : addTests z ts (emptyTable, store') with ⟨T2, S2⟩
  have hT1 : T1 = { dtHeaders := dts.map z.normalize, rows := [] } := by
    have h := addDatetimes_fst z dts emptyTable store
    rw [h1] at h
    simpa [emptyTable] using h
  have hT2 : T2 = { dtHeaders := [], rows := ts.map (fun t => { test := t, results := [] }) } := by
    have h := addTests_fst z ts emptyTable store'
    rw [h2] at h
    simpa [emptyTable] using h
  rw [addTests_fst z ts T1 S1, addDatetimes_fst z dts T2 S2, hT1, hT2]
  simp [List.map_map, Function.comp, cell_normalize]

/-- C10: Test numbering — building any list of Tests from the class
counter's initial value 1 assigns `1, 2, ..., n` in construction order
(each construction exactly one greater than the previous), leaves the
counter at `n + 1`, and the issued numbers are strictly increasing and
pairwise distinct; no table is involved in numbering. -/
theorem test_numbering_sequential (specs : List (SaveMethod × LoadMethod)) :
    (constructTests 1 specs).1.map Test.test_number = List.range' 1 specs.length ∧
      (constructTests 1 specs).2 = specs.length + 1 ∧
      List.Pairwise (· < ·) ((constructTests 1 specs).1.map Test.test_number) ∧
      ((constructTests 1 specs).1.map Test.test_number).Nodup := by
  obtain ⟨hmap, hctr⟩ := constructTests_numbers 1 specs
  refine ⟨hmap, by omega, ?_, ?_⟩
  · rw [hmap]
    exact List.pairwise_lt_range' 1 specs.length
  · rw [hmap]
    exact List.nodup_range' 1 specs.length

/-- C2 counterexample: at `2002-10-27 08:30 UTC` — an instant whose
US/Pacific wall-clock `01:30` falls in the fall-back ambiguous hour —
the aware-save/explicit-load pair in US/Pacific stores the instant
exactly but loads it back one hour late: `loadedCorrect` is false, so
aware/EXPLICIT same-zone round trips do NOT succeed for every instant. -/
theorem aware_explicit_roundtrip_fails_in_fallback :
    ((Test.mk 4 ⟨US_Pacific, "aware"⟩ ⟨US_Pacific, "explicit"⟩).run_test
        US_Pacific [] dtFallBack).1 =
      { stored_correctly := true, loaded_correctly := false,
        stored_error := 0, loaded_error := 60 } := by
  decide

/-- C2 (amended): saving AWARE in zone `Z` and loading via EXPLICIT in
the same zone always yields `storedCorrect = true` with zero stored
error; `loadedCorrect = true` holds whenever the instant's wall-clock
representation in `Z` is unambiguous (exactly one candidate offset) —
but not for every instant: in a DST-ambiguous window the default
localization may resolve to the other offset.  `hwf` states that `Z`'s
offset function only takes values listed among its variants. -/
theorem aware_explicit_roundtrip_amended (Z cz : Tz) (store : List Int) (dt : AwareDT)
    (n : Nat) (hwf : ∀ j : Int, ∃ b, (Z.offsetAt j, b) ∈ Z.variants) :
    ((Test.mk n ⟨Z, "aware"⟩ ⟨Z, "explicit"⟩).run_test cz store dt).1.stored_correctly = true ∧
    ((Test.mk n ⟨Z, "aware"⟩ ⟨Z, "explicit"⟩).run_test cz store dt).1.stored_error = 0 ∧
    ((Z.candidates (dt.instant + Z.offsetAt dt.instant)).length = 1 →
      ((Test.mk n ⟨Z, "aware"⟩ ⟨Z, "explicit"⟩).run_test cz store dt).1.loaded_correctly
        = true) := by
  have hload : ((Test.mk n ⟨Z, "aware"⟩ ⟨Z, "explicit"⟩).run_test cz store dt).1 =
      TestResult.make dt { instant := dt.instant, zone := "UTC", wall := dt.instant }
        (Z.localize (dt.instant + Z.offsetAt dt.instant)) := by
    simp [Test.run_test, Test.make_roundtrip, SaveMethod.save, LoadMethod.load,
      createBits, readRaw, readExplicit, Tz.normalize, UTC_localize]
  rw [hload]
  refine ⟨by simp [TestResult.make, dtEq], by simp [TestResult.make, dtSub], ?_⟩
  intro h1
  obtain ⟨c, hc⟩ := List.length_eq_one.mp h1
  obtain ⟨b, hb⟩ := hwf dt.instant
  have hmem : (Z.offsetAt dt.instant, b) ∈ Z.candidates (dt.instant + Z.offsetAt dt.instant) := by
    refine List.mem_filter.mpr ⟨hb, ?_⟩
    simp [Int.add_sub_cancel]
  rw [hc] at hmem
  simp only [List.mem_singleton] at hmem
  have hc1 : c.1 = Z.offsetAt dt.instant := by rw [← hmem]
  have hcl : Z.localize (dt.instant + Z.offsetAt dt.instant) =
      { instant := dt.instant + Z.offsetAt dt.instant - c.1, zone := Z.zone,
        wall := dt.instant + Z.offsetAt dt.instant } := by
    simp only [Tz.localize, hc]
  simp [hcl, hc1, TestResult.make, dtEq, Int.add_sub_cancel]

/-- Witness for the amended C2: at the unambiguous mid-summer instant,
the US/Pacific aware/explicit round trip loads back correctly. -/
theorem aware_explicit_roundtrip_amended_witness :
    ((Test.mk 4 ⟨US_Pacific, "aware"⟩ ⟨US_Pacific, "explicit"⟩).run_test
        US_Pacific [] dtSummer).1.loaded_correctly = true := by
  have hwf : ∀ j : Int, ∃ b, (US_Pacific.offsetAt j, b) ∈ US_Pacific.variants := by
    intro j
    by_cases hj : (16969560 : Int) ≤ j ∧ j < 17261820
    · exact ⟨true, by simp [US_Pacific, hj]⟩
    · exact ⟨false, by simp [US_Pacific, hj]⟩
  exact (aware_explicit_roundtrip_amended US_Pacific US_Pacific [] dtSummer 4 hwf).2.2
    (by decide)

/-- C3 counterexample: a fully correct cell is rendered as the
two-part string `OK/OK` — not as the single string `OK` the claim
states. -/
theorem result_cell_not_single_OK :
    (TestResult.make dtSummer dtSummer dtSummer).stored_correctly = true ∧
    (TestResult.make dtSummer dtSummer dtSummer).loaded_correctly = true ∧
    (TestResult.make dtSummer dtSummer dtSummer).unicode = "OK/OK" ∧
    (TestResult.make dtSummer dtSummer dtSummer).unicode ≠ "OK" := by
  decide

/-- C3 (amended): each result cell is rendered as two `/`-separated
parts, the stored part `OK` when `stored_correctly` holds and the
signed stored error otherwise, likewise the loaded part — so a fully
correct cell reads `OK/OK`; the rendered grid is the header row (`#`,
save-strategy and load-strategy label columns, then one cell per
datetime column), a dash rule line of the header's length, then one
line per row with its three labels followed by one formatted result
cell per column, all newline-joined. -/
theorem render_cells_and_grid_amended :
    (∀ r : TestResult, r.unicode =
      (if r.stored_correctly then "OK" else timedeltaStr r.stored_error) ++ "/" ++
      (if r.loaded_correctly then "OK" else timedeltaStr r.loaded_error)) ∧
    (∀ r : TestResult, r.stored_correctly = true → r.loaded_correctly = true →
      r.unicode = "OK/OK") ∧
    (∀ tbl : TestTable, tbl.unicode = String.intercalate "\n"
      (formatRow "#" "Save As" "Load As" (tbl.dtHeaders.map AwareDT.unicode) ::
        ruleOf (formatRow "#" "Save As" "Load As" (tbl.dtHeaders.map AwareDT.unicode)) ::
        tbl.rows.map (fun r => formatRow r.test.unicode r.test.save_method.unicode
          r.test.load_method.unicode (r.results.map TestResult.unicode)))) := by
  refine ⟨fun r => rfl, ?_, fun tbl => rfl⟩
  intro r h1 h2
  simp [TestResult.unicode, h1, h2]

/-- Witness for the amended C3: a concrete fully correct result renders
as `OK/OK`. -/
theorem render_cells_and_grid_amended_witness :
    ({ stored_correctly := true, loaded_correctly := true, stored_error := 0,
       loaded_error := 0 } : TestResult).unicode = "OK/OK" :=
  render_cells_and_grid_amended.2.1
    { stored_correctly := true, loaded_correctly := true, stored_error := 0,
      loaded_error := 0 } rfl rfl

/-- C4 counterexample: the wall-clock `2002-10-27 01:30` is genuinely
ambiguous in US/Pacific (localizing with `is_dst=None` raises
`AmbiguousTimeError`), yet `load` — which localizes with the default
`is_dst=False` — does not fail: it silently resolves the stored
instant `08:30 UTC` to the standard offset, returning `09:30 UTC`.
The localization error is never raised, contradicting the claim that it
propagates out of `load`. -/
theorem load_resolves_ambiguous_silently :
    US_Pacific.localizeNone 17261370 = Except.error LocalizeError.ambiguous ∧
    (LoadMethod.mk US_Pacific "explicit").load US_Pacific 17261790 =
      ({ instant := 17261790, zone := "UTC", wall := 17261790 },
       { instant := 17261850, zone := "US/Pacific", wall := 17261370 }) :=
  ⟨rfl, rfl⟩

/-- C4 (amended): localizing with `is_dst=None` raises
`AmbiguousTimeError` on an ambiguous wall-clock and
`NonExistentTimeError` on a nonexistent one, but `load` localizes with
the library default `is_dst=False`, which never raises: an ambiguous
wall-clock is silently resolved to the first non-DST candidate offset,
and `load` always returns the pair of default localizations, any
misresolution surfacing only as a nonzero `loaded_error`. -/
theorem localize_default_never_raises_amended :
    (∀ (tz : Tz) (w : Int), 2 ≤ (tz.candidates w).length →
      tz.localizeNone w = Except.error LocalizeError.ambiguous) ∧
    (∀ (tz : Tz) (w : Int), tz.candidates w = [] →
      tz.localizeNone w = Except.error LocalizeError.nonexistent) ∧
    (∀ (tz : Tz) (w : Int) (v : Int × Bool), 2 ≤ (tz.candidates w).length →
      (tz.candidates w).find? (fun p => p.2 == false) = some v →
      tz.localize w = { instant := w - v.1, zone := tz.zone, wall := w }) ∧
    (∀ (lm : LoadMethod) (cz : Tz) (bits : Int),
      lm.load cz bits = (UTC.localize (readRaw bits),
        lm.tz.localize (if lm.conversion = "implicit" then readImplicit cz bits
          else readExplicit lm.tz bits))) := by
  refine ⟨?_, ?_, ?_, fun lm cz bits => rfl⟩
  · intro tz w h
    rcases hc : tz.candidates w with _ | ⟨a, _ | ⟨b, rest⟩⟩
    · rw [hc] at h
      simp at h
    · rw [hc] at h
      simp at h
    · simp [Tz.localizeNone, hc]
  · intro tz w h
    simp [Tz.localizeNone, h]
  · intro tz w v h hf
    rcases hc : tz.candidates w with _ | ⟨a, _ | ⟨b, rest⟩⟩
    · rw [hc] at h
      simp at h
    · rw [hc] at h
      simp at h
    · rw [hc] at hf
      simp only [Tz.localize, hc, List.isEmpty_cons, Bool.false_eq_true, if_false, hf,
        Option.getD_some]

/-- Witness for the amended C4: the US/Pacific wall-clock
`2002-10-27 01:30` has two candidate offsets, so `is_dst=None`
localization raises the ambiguous-time error there. -/
theorem localize_default_never_raises_amended_witness :
    US_Pacific.localizeNone 17261370 = Except.error LocalizeError.ambiguous :=
  localize_default_never_raises_amended.1 US_Pacific 17261370 (by decide)

/-- C7: `save` first normalizes the input into `self.tz`, preserving the
physical instant; a NAIVE save hands only the wall-clock fields to the
store, an AWARE save hands the zone-carrying value (persisted as its
UTC instant); and each call appends exactly one new record to the
store. -/
theorem save_normalizes_then_strips_and_appends (sm : SaveMethod) (store : List Int)
    (dt : AwareDT) :
    (sm.save store dt).2 = store ++ [(sm.save store dt).1] ∧
    ((sm.save store dt).2).length = store.length + 1 ∧
    (sm.tz.normalize dt).instant = dt.instant ∧
    (sm.style = "naive" → (sm.save store dt).1 = (sm.tz.normalize dt).wall) ∧
    (sm.style = "aware" → (sm.save store dt).1 = (sm.tz.normalize dt).instant) := by
  refine ⟨rfl, by simp [SaveMethod.save], rfl, ?_, ?_⟩
  · intro h
    simp [SaveMethod.save, createBits, h]
  · intro h
    simp [SaveMethod.save, createBits, h]

/-- Witness for C7: a concrete naive save in US/Pacific hands the local
wall-clock `2002-10-27 01:30` (minute count 17261370) to the store, and
the store grows from empty to one record. -/
theorem save_normalizes_then_strips_and_appends_witness :
    ((SaveMethod.mk US_Pacific "naive").save [] dtFallBack).1 = 17261370 ∧
    (((SaveMethod.mk US_Pacific "naive").save [] dtFallBack).2).length = 1 := by
  have h := save_normalizes_then_strips_and_appends (SaveMethod.mk US_Pacific "naive")
    [] dtFallBack
  refine ⟨?_, h.2.1⟩
  rw [h.2.2.2.1 rfl]
  decide

/-- C8: for every stored record, `load` returns a pair whose first
component is the raw stored instant read with no conversion and
localized as UTC (always an aware value in zone `UTC`), and whose second
component is localized into `self.tz` from the connection-zone implicit
conversion when the mode is implicit, and from the explicit
`at time zone` projection when it is explicit. -/
theorem load_returns_utc_stored_and_zone_loaded (lm : LoadMethod) (cz : Tz) (bits : Int) :
    (lm.load cz bits).1 = { instant := readRaw bits, zone := "UTC", wall := readRaw bits } ∧
    (lm.load cz bits).1.zone = "UTC" ∧
    (lm.load cz bits).2 =
      lm.tz.localize (if lm.conversion = "implicit" then readImplicit cz bits
        else readExplicit lm.tz bits) ∧
    (lm.load cz bits).2.zone = lm.tz.zone := by
  refine ⟨?_, ?_, rfl, ?_⟩
  · simp [LoadMethod.load, UTC_localize]
  · simp [LoadMethod.load, UTC_localize]
  · exact localize_zone lm.tz _

/-- C9: constructing a `SaveMethod` succeeds exactly when the style is
`aware` or `naive`, and constructing a `LoadMethod` succeeds exactly
when the conversion is `implicit` or `explicit`; any other value fails
the constructor's validation before any trial runs. -/
theorem construction_validates_style_and_conversion :
    (∀ (tz : Tz) (style : String),
      (SaveMethod.init tz style).isSome = true ↔ style = "aware" ∨ style = "naive") ∧
    (∀ (tz : Tz) (conversion : String),
      (LoadMethod.init tz conversion).isSome = true ↔
        conversion = "implicit" ∨ conversion = "explicit") := by
  constructor
  · intro tz style
    unfold SaveMethod.init
    split <;> simp_all
  · intro tz conversion
    unfold LoadMethod.init
    split <;> simp_all

end Tztest
